import Mathlib

/-!
Shallow embedding of the `ai-conventional-commit` CLI (src/unnamed/part_000,
the most evolved revision of the script, which the later claims cite; the
older revisions `src/index.mjs` and `src/unnamed/part_001` differ only in the
prompt template, the unconditional clipboard write and the missing
confirmation prompt).

The script resolves which files are being committed from the CLI flags
(`getCommitInfo`), builds a fixed natural-language prompt embedding the
developer note and an optional file clause (`conventionalCommit`), sends it to
an external text-generation capability, optionally copies the result to the
clipboard, prints it, and — after a yes/no confirmation — runs
`git commit -m "<message>" [file]`.

External collaborators (the staged-file `git diff` query, the LLM call, the
interactive answer) are passed in as explicit values/functions; all observable
side effects are recorded in a `Trace`.
-/

namespace AICommit

/-- A minimist-style CLI flag value: absent (`none`), boolean (`-c` bare), or
a string (`-c foo`).  JS truthiness on such a value: `false` and the empty
string are falsy. -/
inductive FlagVal where
  | bool (b : Bool)
  | str (s : String)
deriving Repr, DecidableEq

/-- The parsed CLI arguments used by the script: `argv._` (positional),
`argv.c`, `argv.commit`, and the boolean-ish flags `argv.clipboard`,
`argv.cp`, `argv.showPrompt` (modelled by their truthiness). -/
structure Argv where
  positional : List String
  c : Option FlagVal
  commit : Option FlagVal
  clipboard : Bool
  cp : Bool
  showPrompt : Bool
deriving Repr, DecidableEq

/-- JS truthiness of an optional flag value (`argv.x` as a condition):
`undefined`, `false` and `""` are falsy. -/
def truthy : Option FlagVal → Bool
  | none => false
  | some (.bool b) => b
  | some (.str s) => s != ""

/-- The JS test `argv.x && typeof(argv.x)==='string'`: the flag holds a
truthy (hence non-empty) string; returns it. -/
def truthyString : Option FlagVal → Option String
  | some (.str s) => if s = "" then none else some s
  | _ => none

/-- `CommitInfo` from the source: whether a commit should be made, and the
files to commit. -/
structure CommitInfo where
  commit : Bool
  files : List String
deriving Repr, DecidableEq

/-- `getCommitInfo` from the source.  `staged` stands for the result of the
external `getFilesToCommit()` query (`git diff --name-only --cached`,
de-blanked); the second component records whether that query was performed. -/
def getCommitInfo (a : Argv) (staged : List String) : CommitInfo × Bool :=
  if !(truthy a.c || truthy a.commit) then
    ({ commit := false, files := staged }, true)
  else
    match truthyString a.c with
    | some s => ({ commit := true, files := [s] }, false)
    | none =>
      match truthyString a.commit with
      | some s => ({ commit := true, files := [s] }, false)
      | none => ({ commit := true, files := staged }, true)

/-- Node's `path.basename` (posix): strip trailing slashes, then keep the
last path component; `""` maps to `""` and an all-slash path to `"/"`. -/
def basename (p : String) : String :=
  if p = "" then ""
  else
    let rcs := p.data.reverse.dropWhile (· = '/')
    if rcs = [] then "/"
    else String.mk (rcs.takeWhile (· ≠ '/')).reverse

/-- The `fileRule` of `conventionalCommit`:
`(file) ? `i have to commit file "${path.basename(file)}" ` : ''`
(a falsy — absent or empty — file yields the empty clause). -/
def fileRule (file : Option String) : String :=
  match file with
  | some f => if f = "" then "" else "i have to commit file \"" ++ (basename f ++ "\" ")
  | none => ""

/-- The prompt template text before the `{file}` placeholder (exact bytes of
the template literal in `conventionalCommit`). -/
def tplBefore : String :=
  "\n    translate text provided by developer using conventional commit format \n    \n    <type>(<scope>): descriptions\n\n    <type> = feat | fix | docs | style | refactor | perf | test | chore | build\n\n    following rules below\n    * scope is optional but can be specified by developer using text \"(<scope>)\"\n    * type can be specified by developer using suffix \"as <type>\" or inferred based on file extension\n    * for each period add a newline into commit.\n    * answer must contain only the commit text\n    \n    as developer "

/-- The template text between the `{file}` and `{inputText}` placeholders. -/
def tplMid : String := " \""

/-- The template text after the `{inputText}` placeholder. -/
def tplAfter : String := "\"  \n  "

/-- The formatted prompt sent to the LLM: the template with `{file}` replaced
by the file clause and `{inputText}` by the note. -/
def conventionalCommitPrompt (inputText : String) (file : Option String) : String :=
  tplBefore ++ (fileRule file ++ (tplMid ++ (inputText ++ tplAfter)))

/-- `askYesOrNo` from the source: reads an answer line; anything other than
the exact strings `"n"` and `"N"` (in particular the empty answer) counts as
yes. -/
def askYesOrNo (result : String) : Bool :=
  result != "n" && result != "N"

/-- `commitFiles` from the source, as the argument list handed to
`git commit`: `['-m', '"<message>"']`, plus the single file when exactly one
file is being committed. -/
def commitFiles (commitMessage : String) (files : List String) : List String :=
  let args := ["-m", "\"" ++ commitMessage ++ "\""]
  match files with
  | [f] => args ++ [f]
  | _ => args

/-- The `file` argument `main` passes to `conventionalCommit`:
`filesToCommit.length === 1 ? filesToCommit[0] : undefined`. -/
def resolvedFileArg (files : List String) : Option String :=
  if files.length = 1 then files.head? else none

/-- How the `main` run ended (after the note check succeeded). -/
inductive MainOutcome where
  | nothingToCommit
  | done
deriving Repr, DecidableEq

/-- The observable effects of one `main` run. -/
structure Trace where
  stagedQueried : Bool
  warnedNoFiles : Bool
  genPrompts : List String
  clipboardWrites : List String
  printed : List String
  commitCalls : List (List String)
  outcome : MainOutcome
deriving Repr, DecidableEq

/-- `main` from the source.  `staged` is the staged-file list the external
query would return, `gen` the external text-generation capability
(prompt ↦ generated message), `answer` the line the interactive confirmation
would read.  A missing note is the thrown `"Please provide input text"`. -/
def runMain (a : Argv) (staged : List String) (gen : String → String)
    (answer : String) : Except String Trace :=
  match a.positional with
  | [] => .error "Please provide input text"
  | inputText :: _ =>
    let (info, queried) := getCommitInfo a staged
    if info.files.isEmpty && info.commit then
      .ok { stagedQueried := queried, warnedNoFiles := true, genPrompts := [],
            clipboardWrites := [], printed := [], commitCalls := [],
            outcome := .nothingToCommit }
    else
      let message := gen (conventionalCommitPrompt inputText (resolvedFileArg info.files))
      .ok { stagedQueried := queried
            warnedNoFiles := info.files.isEmpty
            genPrompts := [conventionalCommitPrompt inputText (resolvedFileArg info.files)]
            clipboardWrites := if a.clipboard || a.cp then [message] else []
            printed := [message]
            commitCalls :=
              if info.commit && askYesOrNo answer then [commitFiles message info.files] else []
            outcome := .done }

/-- How the Node process terminates. -/
inductive ExitKind where
  | normal
  | failure
deriving Repr, DecidableEq

/-- Result of the whole script run: the trace when `main`'s promise resolved,
the error logged by the `.catch` handler when it rejected, and the process
exit kind. -/
structure TopResult where
  trace : Option Trace
  loggedError : Option String
  exit : ExitKind
deriving Repr, DecidableEq

/-- The top level of the script:
`main().then(result => {}).catch(error => console.log(error))`.
Every rejection is caught and logged, the script never calls `process.exit`,
so the Node process terminates normally (exit code 0) either way. -/
def topLevel (a : Argv) (staged : List String) (gen : String → String)
    (answer : String) : TopResult :=
  match runMain a staged gen answer with
  | .ok t => { trace := some t, loggedError := none, exit := .normal }
  | .error e => { trace := none, loggedError := some e, exit := .normal }

/-- `sub` occurs contiguously inside `s`. -/
def substrOf (sub s : String) : Prop :=
  ∃ p q, s = p ++ (sub ++ q)

/-- The `<type>(<scope>): descriptions` shape line of the prompt template. -/
def shapeRuleText : String := "<type>(<scope>): descriptions"

/-- The fixed type-vocabulary line of the prompt template. -/
def typeVocabText : String :=
  "<type> = feat | fix | docs | style | refactor | perf | test | chore | build"

/-- The optional-scope rule of the prompt template. -/
def scopeRuleText : String :=
  "* scope is optional but can be specified by developer using text \"(<scope>)\""

/-- The `as <type>` suffix rule of the prompt template. -/
def typeSuffixRuleText : String :=
  "* type can be specified by developer using suffix \"as <type>\" or inferred based on file extension"

/-- The one-newline-per-period rule of the prompt template. -/
def periodRuleText : String := "* for each period add a newline into commit."

/-- The only-the-commit-text rule of the prompt template. -/
def onlyCommitTextRuleText : String := "* answer must contain only the commit text"

set_option maxRecDepth 4096 in
theorem tplBefore_decomp :
    tplBefore =
      "\n    translate text provided by developer using conventional commit format \n    \n    "
      ++ (shapeRuleText ++ ("\n\n    " ++ (typeVocabText
      ++ ("\n\n    following rules below\n    " ++ (scopeRuleText
      ++ ("\n    " ++ (typeSuffixRuleText ++ ("\n    " ++ (periodRuleText
      ++ ("\n    " ++ (onlyCommitTextRuleText
      ++ "\n    \n    as developer "))))))))))) := by decide

theorem substrOf_head (s q : String) : substrOf s (s ++ q) :=
  ⟨"", q, rfl⟩

theorem substrOf_appendR {sub b : String} (a : String) (h : substrOf sub b) :
    substrOf sub (a ++ b) := by
  obtain ⟨p, q, rfl⟩ := h
  exact ⟨a ++ p, q, by rw [String.append_assoc]⟩

theorem substrOf_appendL {sub a : String} (b : String) (h : substrOf sub a) :
    substrOf sub (a ++ b) := by
  obtain ⟨p, q, rfl⟩ := h
  exact ⟨p, q ++ b, by rw [String.append_assoc, String.append_assoc]⟩

/-- A flag value that the JS test `argv.x && typeof(argv.x)==='string'`
accepts is in particular truthy. -/
theorem truthy_of_truthyString {v : Option FlagVal} {s : String}
    (h : truthyString v = some s) : truthy v = true := by
  match v with
  | none => simp [truthyString] at h
  | some (.bool b) => simp [truthyString] at h
  | some (.str t) =>
    by_cases hne : t = ""
    · simp [truthyString, hne] at h
    · simp [truthy, hne]

/-- C5: the interactive yes/no confirmation returns decline (`false`) exactly
on the one-character answers `"n"` and `"N"`; the empty answer counts as
acceptance. -/
theorem askYesOrNo_decline_iff :
    (∀ r, askYesOrNo r = false ↔ (r = "n" ∨ r = "N")) ∧ askYesOrNo "" = true := by
  refine ⟨fun r => ?_, by decide⟩
  unfold askYesOrNo
  rcases eq_or_ne r "n" with h | h
  · simp [h]
  · rcases eq_or_ne r "N" with h2 | h2
    · simp [h2]
    · simp [h, h2]

/-- C9: the Prompt Builder is a total pure function of `(note, file)`: equal
inputs produce byte-identical prompt text (no hidden state enters the
construction). -/
theorem conventionalCommitPrompt_deterministic (n₁ n₂ : String)
    (f₁ f₂ : Option String) (hn : n₁ = n₂) (hf : f₁ = f₂) :
    conventionalCommitPrompt n₁ f₁ = conventionalCommitPrompt n₂ f₂ := by
  rw [hn, hf]

theorem conventionalCommitPrompt_deterministic_witness :
    conventionalCommitPrompt "update readme" (some "README.md")
      = conventionalCommitPrompt "update readme" (some "README.md") :=
  conventionalCommitPrompt_deterministic "update readme" "update readme"
    (some "README.md") (some "README.md") rfl rfl

/-- C10: the `-m` argument handed to `git commit` is the generated message
wrapped in literal double quotes, which always differs from the message
itself. -/
theorem commit_subject_quoted (msg : String) (files : List String) :
    (commitFiles msg files)[1]? = some ("\"" ++ msg ++ "\"") ∧
    "\"" ++ msg ++ "\"" ≠ msg := by
  constructor
  · rcases files with _ | ⟨f, _ | ⟨g, t⟩⟩ <;> rfl
  · intro h
    have hlen := congrArg String.length h
    rw [String.length_append, String.length_append] at hlen
    have h1 : ("\"" : String).length = 1 := rfl
    rw [h1] at hlen
    omega

/-- C3 counterexample: `-c` carrying the (falsy) empty string is a string
value, yet the resolver returns `shouldCommit = false` with the staged files,
and the staged-files provider is consulted. -/
theorem emptyString_flag_counterexample :
    (getCommitInfo { positional := ["note"], c := some (.str ""), commit := none,
                     clipboard := false, cp := false, showPrompt := false }
        ["f1", "f2"]).1.commit = false ∧
    (getCommitInfo { positional := ["note"], c := some (.str ""), commit := none,
                     clipboard := false, cp := false, showPrompt := false }
        ["f1", "f2"]).1.files = ["f1", "f2"] ∧
    (getCommitInfo { positional := ["note"], c := some (.str ""), commit := none,
                     clipboard := false, cp := false, showPrompt := false }
        ["f1", "f2"]).2 = true := by
  decide

/-- C3 (amended): when `-c` (or, failing that, `--commit`) carries a truthy —
i.e. non-empty — string value, the resolver returns `shouldCommit = true`,
exactly that one-element file list, and the staged-files provider is not
called. -/
theorem filename_flag_override (a : Argv) (staged : List String) (s : String)
    (h : truthyString a.c = some s ∨
         (truthyString a.c = none ∧ truthyString a.commit = some s)) :
    getCommitInfo a staged = ({ commit := true, files := [s] }, false) := by
  unfold getCommitInfo
  rcases h with h | ⟨h1, h2⟩
  · rw [truthy_of_truthyString h]
    simp [h]
  · rw [truthy_of_truthyString h2]
    simp [h1, h2]

theorem filename_flag_override_witness :
    getCommitInfo { positional := ["note"], c := some (.str "x.txt"), commit := none,
                    clipboard := false, cp := false, showPrompt := false }
        ["staged1", "staged2"]
      = ({ commit := true, files := ["x.txt"] }, false) :=
  filename_flag_override _ _ "x.txt" (Or.inl (by decide))

/-- C2 counterexample: with exactly one resolved file carrying a directory
prefix, the file context handed to the Prompt Builder is the full path, not
the base name. -/
theorem fileContext_not_basename_counterexample :
    resolvedFileArg ["src/app.js"] = some "src/app.js" ∧
    basename "src/app.js" = "app.js" ∧
    resolvedFileArg ["src/app.js"] ≠ some (basename "src/app.js") := by
  decide

/-- C2 (amended): the file context handed to the Prompt Builder is present
iff exactly one file was resolved, and it is then that file's full path; the
Prompt Builder itself strips the directory prefix, turning the context into
the clause `i have to commit file "<basename>" ` embedded in the request. -/
theorem fileContext_iff_single (files : List String) :
    ((resolvedFileArg files).isSome ↔ files.length = 1) ∧
    (∀ f, files = [f] → resolvedFileArg files = some f) ∧
    (∀ f, files = [f] → f ≠ "" →
      fileRule (resolvedFileArg files)
        = "i have to commit file \"" ++ basename f ++ "\" ") := by
  refine ⟨?_, ?_, ?_⟩
  · rcases files with _ | ⟨f, _ | ⟨g, t⟩⟩ <;> simp [resolvedFileArg]
  · rintro f rfl
    simp [resolvedFileArg]
  · rintro f rfl hne
    simp [resolvedFileArg, fileRule, hne, String.append_assoc]

theorem fileContext_iff_single_witness :
    ((resolvedFileArg ["src/util.js"]).isSome
        ↔ (["src/util.js"] : List String).length = 1) ∧
    fileRule (resolvedFileArg ["src/util.js"])
      = "i have to commit file \"" ++ basename "src/util.js" ++ "\" " :=
  ⟨(fileContext_iff_single ["src/util.js"]).1,
   (fileContext_iff_single ["src/util.js"]).2.2 "src/util.js" rfl (by decide)⟩

/-- Shape of the `main` run once a note is present and the nothing-to-commit
early return is not taken: exactly one generation call, the conditional
clipboard write, the printed message, and the confirmation-gated commit
call. -/
theorem runMain_dispatch (a : Argv) (staged : List String) (gen : String → String)
    (answer : String) (note : String) (rest : List String)
    (hpos : a.positional = note :: rest)
    (hno : ((getCommitInfo a staged).1.files.isEmpty
            && (getCommitInfo a staged).1.commit) = false) :
    runMain a staged gen answer =
      .ok { stagedQueried := (getCommitInfo a staged).2
            warnedNoFiles := (getCommitInfo a staged).1.files.isEmpty
            genPrompts := [conventionalCommitPrompt note
              (resolvedFileArg (getCommitInfo a staged).1.files)]
            clipboardWrites :=
              if a.clipboard || a.cp then
                [gen (conventionalCommitPrompt note
                  (resolvedFileArg (getCommitInfo a staged).1.files))]
              else []
            printed := [gen (conventionalCommitPrompt note
              (resolvedFileArg (getCommitInfo a staged).1.files))]
            commitCalls :=
              if (getCommitInfo a staged).1.commit && askYesOrNo answer then
                [commitFiles
                  (gen (conventionalCommitPrompt note
                    (resolvedFileArg (getCommitInfo a staged).1.files)))
                  (getCommitInfo a staged).1.files]
              else []
            outcome := .done } := by
  rcases hgc : getCommitInfo a staged with ⟨info, q⟩
  rw [hgc] at hno
  unfold runMain
  rw [hpos, hgc]
  simp
  intro hf
  rw [hf] at hno
  simpa using hno

/-- Shape of the `main` run when the nothing-to-commit early return fires. -/
theorem runMain_halt (a : Argv) (staged : List String) (gen : String → String)
    (answer : String) (note : String) (rest : List String)
    (hpos : a.positional = note :: rest)
    (hfiles : (getCommitInfo a staged).1.files = [])
    (hcommit : (getCommitInfo a staged).1.commit = true) :
    runMain a staged gen answer =
      .ok { stagedQueried := (getCommitInfo a staged).2, warnedNoFiles := true,
            genPrompts := [], clipboardWrites := [], printed := [],
            commitCalls := [], outcome := .nothingToCommit } := by
  rcases hgc : getCommitInfo a staged with ⟨info, q⟩
  rw [hgc] at hfiles hcommit
  unfold runMain
  rw [hpos, hgc]
  simp
  exact ⟨hfiles, hcommit⟩

/-- C1: with zero resolved files and a commit requested, `main` warns and
returns before the generator runs: no generation call, no clipboard write,
nothing printed, no commit call. -/
theorem nothing_to_commit_halts (a : Argv) (staged : List String)
    (gen : String → String) (answer : String) (note : String) (rest : List String)
    (hpos : a.positional = note :: rest)
    (hfiles : (getCommitInfo a staged).1.files = [])
    (hcommit : (getCommitInfo a staged).1.commit = true) :
    runMain a staged gen answer =
      .ok { stagedQueried := (getCommitInfo a staged).2, warnedNoFiles := true,
            genPrompts := [], clipboardWrites := [], printed := [],
            commitCalls := [], outcome := .nothingToCommit } :=
  runMain_halt a staged gen answer note rest hpos hfiles hcommit

theorem nothing_to_commit_halts_witness :
    runMain { positional := ["some note"], c := none, commit := some (.bool true),
              clipboard := false, cp := false, showPrompt := false }
        [] (fun _ => "generated") "" =
      .ok { stagedQueried :=
              (getCommitInfo { positional := ["some note"], c := none,
                               commit := some (.bool true), clipboard := false,
                               cp := false, showPrompt := false } []).2,
            warnedNoFiles := true, genPrompts := [], clipboardWrites := [],
            printed := [], commitCalls := [], outcome := .nothingToCommit } :=
  nothing_to_commit_halts _ [] (fun _ => "generated") "" "some note" []
    rfl (by decide) (by decide)

/-- C6 counterexample: with no note argument the usage error is caught by the
top-level `.catch` handler, which logs it, and the process terminates
normally — the exit code is zero, not non-zero. -/
theorem usage_error_exit_counterexample :
    (topLevel { positional := [], c := none, commit := none, clipboard := false,
                cp := false, showPrompt := false }
        ["staged.txt"] (fun _ => "generated") "").exit = ExitKind.normal ∧
    (topLevel { positional := [], c := none, commit := none, clipboard := false,
                cp := false, showPrompt := false }
        ["staged.txt"] (fun _ => "generated") "").loggedError
      = some "Please provide input text" :=
  ⟨rfl, rfl⟩

/-- C6 (amended): with no positional note, `main` rejects with the usage
error before any external call (no staged query, no generation, no commit);
the top-level handler catches and logs the error and the process exits
normally (exit code zero), not with a non-zero code. -/
theorem usage_error_before_any_call (a : Argv) (staged : List String)
    (gen : String → String) (answer : String) (h : a.positional = []) :
    runMain a staged gen answer = .error "Please provide input text" ∧
    topLevel a staged gen answer =
      { trace := none, loggedError := some "Please provide input text",
        exit := .normal } := by
  have h1 : runMain a staged gen answer = .error "Please provide input text" := by
    unfold runMain
    rw [h]
  exact ⟨h1, by unfold topLevel; rw [h1]⟩

theorem usage_error_before_any_call_witness :
    runMain { positional := [], c := none, commit := some (.bool true),
              clipboard := true, cp := false, showPrompt := false }
        ["a.txt"] (fun _ => "generated") "n"
      = .error "Please provide input text" :=
  (usage_error_before_any_call _ ["a.txt"] (fun _ => "generated") "n" rfl).1

/-- C4: on a confirmed commit, `git commit` is invoked once with the
generated message as the `-m` subject (wrapped in quotes, see the quoting
theorem); with exactly one resolved file that file is passed as an explicit
trailing argument, with more than one file no file argument is added. -/
theorem confirmed_commit_invocation (a : Argv) (staged : List String)
    (gen : String → String) (answer : String) (note : String) (rest : List String)
    (hpos : a.positional = note :: rest)
    (hcommit : (getCommitInfo a staged).1.commit = true)
    (hne : (getCommitInfo a staged).1.files ≠ [])
    (hyes : askYesOrNo answer = true) :
    (∃ t, runMain a staged gen answer = .ok t ∧
      t.commitCalls = [commitFiles
        (gen (conventionalCommitPrompt note
          (resolvedFileArg (getCommitInfo a staged).1.files)))
        (getCommitInfo a staged).1.files]) ∧
    (∀ msg f, (getCommitInfo a staged).1.files = [f] →
      commitFiles msg (getCommitInfo a staged).1.files
        = ["-m", "\"" ++ msg ++ "\"", f]) ∧
    (∀ msg, 1 < (getCommitInfo a staged).1.files.length →
      commitFiles msg (getCommitInfo a staged).1.files
        = ["-m", "\"" ++ msg ++ "\""]) := by
  have hno : ((getCommitInfo a staged).1.files.isEmpty
      && (getCommitInfo a staged).1.commit) = false := by
    rcases h : (getCommitInfo a staged).1.files with _ | ⟨f, fs⟩
    · exact absurd h hne
    · simp
  refine ⟨⟨_, runMain_dispatch a staged gen answer note rest hpos hno, ?_⟩, ?_, ?_⟩
  · simp [hcommit, hyes]
  · intro msg f hf
    rw [hf]
    rfl
  · intro msg hlen
    rcases h : (getCommitInfo a staged).1.files with _ | ⟨f, _ | ⟨g, fs⟩⟩
    · rw [h] at hlen
      simp at hlen
    · rw [h] at hlen
      simp at hlen
    · rfl

theorem confirmed_commit_invocation_witness :
    commitFiles "feat: my note"
        (getCommitInfo { positional := ["my note"], c := some (.str "one.txt"),
                         commit := none, clipboard := false, cp := false,
                         showPrompt := false } ["s1", "s2"]).1.files
      = ["-m", "\"" ++ "feat: my note" ++ "\"", "one.txt"] :=
  (confirmed_commit_invocation _ ["s1", "s2"] (fun _ => "feat: my note") "y"
      "my note" [] rfl (by decide) (by decide) (by decide)).2.1
    "feat: my note" "one.txt" (by decide)

/-- Without a truthy `--clipboard`/`--cp` flag, no run of `main` writes to
the clipboard, whichever way it ends. -/
theorem clipboardWrites_empty_of_no_flag (a : Argv) (staged : List String)
    (gen : String → String) (answer : String) (t : Trace)
    (hok : runMain a staged gen answer = .ok t)
    (hflag : (a.clipboard || a.cp) = false) :
    t.clipboardWrites = [] := by
  cases hpos : a.positional with
  | nil =>
    unfold runMain at hok
    rw [hpos] at hok
    cases hok
  | cons note rest =>
    by_cases hcond : ((getCommitInfo a staged).1.files.isEmpty
        && (getCommitInfo a staged).1.commit) = true
    · rw [Bool.and_eq_true, List.isEmpty_iff] at hcond
      rw [runMain_halt a staged gen answer note rest hpos hcond.1 hcond.2] at hok
      simp only [Except.ok.injEq] at hok
      rw [← hok]
    · rw [runMain_dispatch a staged gen answer note rest hpos
          (by simpa using hcond)] at hok
      simp only [Except.ok.injEq] at hok
      rw [← hok]
      simp [hflag]

/-- C7: the generated message is copied verbatim to the clipboard exactly
when `--clipboard` or `--cp` is set: without the flags no run performs a
clipboard write, and with them the dispatched run writes precisely the
message it prints. -/
theorem clipboard_write_iff (a : Argv) (staged : List String)
    (gen : String → String) (answer : String) :
    (∀ t, runMain a staged gen answer = .ok t → (a.clipboard || a.cp) = false →
      t.clipboardWrites = []) ∧
    (∀ note rest, a.positional = note :: rest →
      ((getCommitInfo a staged).1.files.isEmpty
        && (getCommitInfo a staged).1.commit) = false →
      (a.clipboard || a.cp) = true →
      ∃ t, runMain a staged gen answer = .ok t ∧
        t.printed = [gen (conventionalCommitPrompt note
          (resolvedFileArg (getCommitInfo a staged).1.files))] ∧
        t.clipboardWrites = t.printed) := by
  constructor
  · intro t hok hflag
    exact clipboardWrites_empty_of_no_flag a staged gen answer t hok hflag
  · intro note rest hpos hno hflag
    refine ⟨_, runMain_dispatch a staged gen answer note rest hpos hno, ?_, ?_⟩
    · rfl
    · simp [hflag]

theorem clipboard_write_iff_witness :
    ∃ t, runMain { positional := ["a note"], c := none, commit := none,
                   clipboard := true, cp := false, showPrompt := false }
          ["f1", "f2"] (fun _ => "chore: things") "" = .ok t ∧
      t.printed = [(fun _ => "chore: things")
        (conventionalCommitPrompt "a note"
          (resolvedFileArg (getCommitInfo
            { positional := ["a note"], c := none, commit := none,
              clipboard := true, cp := false, showPrompt := false }
            ["f1", "f2"]).1.files))] ∧
      t.clipboardWrites = t.printed :=
  (clipboard_write_iff _ ["f1", "f2"] (fun _ => "chore: things") "").2
    "a note" [] rfl (by decide) rfl

theorem shapeRule_in_tplBefore : substrOf shapeRuleText tplBefore := by
  rw [tplBefore_decomp]
  repeat first
    | exact substrOf_head _ _
    | apply substrOf_appendR

theorem typeVocab_in_tplBefore : substrOf typeVocabText tplBefore := by
  rw [tplBefore_decomp]
  repeat first
    | exact substrOf_head _ _
    | apply substrOf_appendR

theorem scopeRule_in_tplBefore : substrOf scopeRuleText tplBefore := by
  rw [tplBefore_decomp]
  repeat first
    | exact substrOf_head _ _
    | apply substrOf_appendR

theorem typeSuffixRule_in_tplBefore : substrOf typeSuffixRuleText tplBefore := by
  rw [tplBefore_decomp]
  repeat first
    | exact substrOf_head _ _
    | apply substrOf_appendR

theorem periodRule_in_tplBefore : substrOf periodRuleText tplBefore := by
  rw [tplBefore_decomp]
  repeat first
    | exact substrOf_head _ _
    | apply substrOf_appendR

theorem onlyCommitTextRule_in_tplBefore : substrOf onlyCommitTextRuleText tplBefore := by
  rw [tplBefore_decomp]
  repeat first
    | exact substrOf_head _ _
    | apply substrOf_appendR

/-- C8: for any note and file context, the constructed prompt contains the
note verbatim, the file clause (whose text, for a present non-empty file,
contains the file's base name), the `type(scope)` shape line, the fixed type
vocabulary, the optional-scope rule, the `as <type>` suffix rule, the
newline-per-period rule, and the only-the-commit-text rule. -/
theorem prompt_contains_note_file_and_rules (note : String) (file : Option String) :
    substrOf note (conventionalCommitPrompt note file) ∧
    substrOf (fileRule file) (conventionalCommitPrompt note file) ∧
    (∀ f, file = some f → f ≠ "" →
      substrOf (basename f) (conventionalCommitPrompt note file)) ∧
    substrOf shapeRuleText (conventionalCommitPrompt note file) ∧
    substrOf typeVocabText (conventionalCommitPrompt note file) ∧
    substrOf scopeRuleText (conventionalCommitPrompt note file) ∧
    substrOf typeSuffixRuleText (conventionalCommitPrompt note file) ∧
    substrOf periodRuleText (conventionalCommitPrompt note file) ∧
    substrOf onlyCommitTextRuleText (conventionalCommitPrompt note file) := by
  unfold conventionalCommitPrompt
  refine ⟨?_, ?_, ?_, ?_, ?_, ?_, ?_, ?_, ?_⟩
  · exact substrOf_appendR _ (substrOf_appendR _ (substrOf_appendR _
      (substrOf_head _ _)))
  · exact ⟨tplBefore, _, rfl⟩
  · rintro f rfl hne
    apply substrOf_appendR
    apply substrOf_appendL
    show substrOf (basename f) (fileRule (some f))
    simp only [fileRule, if_neg hne]
    exact ⟨_, _, rfl⟩
  · exact substrOf_appendL _ shapeRule_in_tplBefore
  · exact substrOf_appendL _ typeVocab_in_tplBefore
  · exact substrOf_appendL _ scopeRule_in_tplBefore
  · exact substrOf_appendL _ typeSuffixRule_in_tplBefore
  · exact substrOf_appendL _ periodRule_in_tplBefore
  · exact substrOf_appendL _ onlyCommitTextRule_in_tplBefore

theorem prompt_contains_note_file_and_rules_witness :
    substrOf (basename "src/test.js")
      (conventionalCommitPrompt "add tests" (some "src/test.js")) ∧
    substrOf "add tests" (conventionalCommitPrompt "add tests" (some "src/test.js")) ∧
    substrOf periodRuleText (conventionalCommitPrompt "add tests" (some "src/test.js")) :=
  ⟨(prompt_contains_note_file_and_rules "add tests" (some "src/test.js")).2.2.1
      "src/test.js" rfl (by decide),
   (prompt_contains_note_file_and_rules "add tests" (some "src/test.js")).1,
   (prompt_contains_note_file_and_rules "add tests" (some "src/test.js")).2.2.2.2.2.2.2.1⟩

end AICommit
